import Mathlib

/-!
Verification of the batching / statistics logic of the stress-test script
(`stress-test.js`) and of the Express service (`app.js`) of this repository.

Modelling conventions:
* JS numbers that are in fact nonnegative integers are modelled as `Nat`
  (with `Int` where the source can go negative, e.g. `remainingRequests`).
* Measured elapsed times are modelled as exact rationals `ℚ`; where the
  source divides two numbers that may both be zero, the JS result `NaN`
  (and `Infinity`) is modelled explicitly by the type `JSNum`.
* `Math.ceil(a / b)` on nonnegative integers is `jsCeilDiv`; division by
  zero is modelled as 0 (it arises only for `totalRequests = 0`, where the
  loop never reads the value).
* `Array.prototype.sort` with the numeric comparator `(a, b) => a - b`
  is an ascending sort, modelled by `List.insertionSort (· ≤ ·)`.
-/

/-- `Math.ceil(a / b)` for natural `a`, `b`; `b = 0` yields `0`. -/
def jsCeilDiv (a b : Nat) : Nat := (a + b - 1) / b

/-- `stress-test.js` line 218: `numBatches = Math.ceil(totalRequests / concurrentRequests)`. -/
def numBatches (total concurrent : Nat) : Nat := jsCeilDiv total concurrent

/-- `stress-test.js` line 219: `requestsPerBatch = Math.ceil(totalRequests / numBatches)`. -/
def requestsPerBatch (total concurrent : Nat) : Nat :=
  jsCeilDiv total (numBatches total concurrent)

/-- The batch loop of `runStressTest` (lines 223–242), restricted to the batch
sizes it actually issues.  `fuel` is the number of loop iterations left
(`numBatches - b`), `b` the current batch index.  Each iteration computes
`remaining = totalRequests - b * requestsPerBatch`,
`size = min requestsPerBatch remaining`, and breaks when `size ≤ 0`. -/
def batchSizesFrom (total rPerBatch : Int) : Nat → Int → List Int
  | 0, _ => []
  | fuel + 1, b =>
    let remaining := total - b * rPerBatch
    let size := min rPerBatch remaining
    if size ≤ 0 then [] else size :: batchSizesFrom total rPerBatch fuel (b + 1)

/-- The list of batch sizes the loop issues for a given configuration. -/
def batchSizes (total concurrent : Nat) : List Int :=
  batchSizesFrom (total : Int) (requestsPerBatch total concurrent : Int)
    (numBatches total concurrent) 0

/-- `executeConcurrentRequests` (lines 145–154): the request ids of one batch,
`requestId = batchNumber * batchSize + i + 1` for `i < batchSize`. -/
def batchRequestIds (batchNumber batchSize : Nat) : List Nat :=
  (List.range batchSize).map fun i => batchNumber * batchSize + i + 1

/-- All request ids of a run, in dispatch order. -/
def requestIds (total concurrent : Nat) : List Nat :=
  ((batchSizes total concurrent).enum).flatMap fun p => batchRequestIds p.1 p.2.toNat

/-- `calculatePercentile` (lines 95–99): sort ascending, take the element at
index `Math.ceil((percentile / 100) * sorted.length) - 1`, with `|| 0` turning
an out-of-range access into `0`.  The float product `(percentile / 100) *
sorted.length` is modelled by the exact rational `percentile * length / 100`
(they agree on every percentile the script uses). -/
def calculatePercentile (values : List Int) (percentile : Nat) : Int :=
  let sorted := List.insertionSort (· ≤ ·) values
  let index : Int := (jsCeilDiv (percentile * sorted.length) 100 : Int) - 1
  if 0 ≤ index then sorted.getD index.toNat 0 else 0

/-- The outcome of one HTTP call as `makeRequest` classifies it: a response
(with its elapsed time and status) or an error (elapsed time and message). -/
inductive RequestOutcome where
  | success (responseTime : ℚ) (status : Nat)
  | failure (responseTime : ℚ) (errMsg : String)
deriving DecidableEq

/-- The `stats` aggregate (lines 61–72).  `minResponseTime` starts at
`Infinity`, modelled as `⊤` in `WithTop ℚ`. -/
structure Stats where
  totalRequests : Nat
  successfulRequests : Nat
  failedRequests : Nat
  totalResponseTime : ℚ
  minResponseTime : WithTop ℚ
  maxResponseTime : ℚ
  responseTimes : List ℚ
  errors : List (Nat × String × ℚ)
deriving DecidableEq

/-- The initial `stats` object (timestamps omitted; they play no role in the
claims). -/
def initStats : Stats :=
  { totalRequests := 0
    successfulRequests := 0
    failedRequests := 0
    totalResponseTime := 0
    minResponseTime := ⊤
    maxResponseTime := 0
    responseTimes := []
    errors := [] }

/-- The statistics update performed by `makeRequest` (lines 102–142) for one
completed request: the `try` branch on a response, the `catch` branch on an
error, and the `finally` increment of `totalRequests` in both. -/
def makeRequest (requestId : Nat) (outcome : RequestOutcome) (s : Stats) : Stats :=
  match outcome with
  | .success rt _status =>
    { s with
      successfulRequests := s.successfulRequests + 1
      totalResponseTime := s.totalResponseTime + rt
      minResponseTime := min s.minResponseTime (rt : WithTop ℚ)
      maxResponseTime := max s.maxResponseTime rt
      responseTimes := s.responseTimes ++ [rt]
      totalRequests := s.totalRequests + 1 }
  | .failure rt msg =>
    { s with
      failedRequests := s.failedRequests + 1
      errors := s.errors ++ [(requestId, msg, rt)]
      totalRequests := s.totalRequests + 1 }

/-- A whole run folded over the requests in completion order (each request's
statistics update is a single atomic step of the single-threaded event loop). -/
def runStats (requests : List (Nat × RequestOutcome)) : Stats :=
  requests.foldl (fun s r => makeRequest r.1 r.2 s) initStats

/-- A JS number that may be `NaN` or `Infinity` (the only non-finite values
the report computations can produce). -/
inductive JSNum where
  | num (q : ℚ)
  | nan
  | inf
deriving DecidableEq

/-- JS division for the nonnegative operands of the report: `0 / 0 = NaN`,
`x / 0 = Infinity` for `x > 0`. -/
def jsDiv (a b : ℚ) : JSNum :=
  if b = 0 then (if a = 0 then .nan else .inf) else .num (a / b)

/-- Multiplication of a (possibly non-finite) JS number by a positive finite
constant, as in `(successful / total) * 100`. -/
def jsMulPos (x : JSNum) (c : ℚ) : JSNum :=
  match x with
  | .num q => .num (q * c)
  | .nan => .nan
  | .inf => .inf

/-- The decimal digit character of `n < 10`. -/
def digitChar : Nat → Char
  | 0 => '0'
  | 1 => '1'
  | 2 => '2'
  | 3 => '3'
  | 4 => '4'
  | 5 => '5'
  | 6 => '6'
  | 7 => '7'
  | 8 => '8'
  | _ => '9'

/-- Decimal digits of `n`, most significant first; `fuel` bounds the digit
count (recursion halts long before it runs out). -/
def natDigits : Nat → Nat → List Char
  | 0, _ => []
  | fuel + 1, n =>
    if n < 10 then [digitChar n]
    else natDigits fuel (n / 10) ++ [digitChar (n % 10)]

/-- Decimal rendering of a natural number. -/
def natToString (n : Nat) : String := String.mk (natDigits (n + 1) n)

/-- `Number.prototype.toFixed(2)`: the integer `n` nearest to `x * 100`
(ties toward `+∞`, i.e. `⌊x * 100 + 1/2⌋`), rendered with two fraction
digits.  Used on nonnegative report values. -/
def toFixed2 (q : ℚ) : String :=
  let n : Int := ⌊q * 100 + 1 / 2⌋
  let m := n.natAbs
  let sign := if n < 0 then "-" else ""
  sign ++ natToString (m / 100) ++ "." ++
    (if m % 100 < 10 then "0" else "") ++ natToString (m % 100)

/-- Rendering a `JSNum` the way string interpolation of `toFixed(2)` does:
`NaN.toFixed(2) = "NaN"`, `Infinity.toFixed(2) = "Infinity"`. -/
def jsNumToFixed2 : JSNum → String
  | .num q => toFixed2 q
  | .nan => "NaN"
  | .inf => "Infinity"

/-- `printStatistics` line 160: `(successfulRequests / totalRequests) * 100`. -/
def successRate (successful total : Nat) : JSNum :=
  jsMulPos (jsDiv (successful : ℚ) (total : ℚ)) 100

/-- `printStatistics` line 161: `totalRequests / (duration / 1000)`. -/
def requestsPerSecond (total : Nat) (durationMs : ℚ) : JSNum :=
  jsDiv (total : ℚ) (durationMs / 1000)

/-- The `Success Rate:` line of the report. -/
def successRateLine (successful total : Nat) : String :=
  "Success Rate: " ++ jsNumToFixed2 (successRate successful total) ++ "%"

/-- The `Requests/Second:` line of the report. -/
def requestsPerSecondLine (total : Nat) (durationMs : ℚ) : String :=
  "Requests/Second: " ++ jsNumToFixed2 (requestsPerSecond total durationMs)

/-- The numeric value of a digit list, as accumulated by `parseInt`. -/
def digitsValue (cs : List Char) : Option Nat :=
  let ds := cs.takeWhile Char.isDigit
  if ds = [] then none
  else some (ds.foldl (fun acc c => acc * 10 + (c.toNat - '0'.toNat)) 0)

/-- JS `parseInt` on a string (base 10): skip leading whitespace, optional
sign, then the longest digit run; `none` models the result `NaN`. -/
def parseIntJS (s : String) : Option Int :=
  let cs := s.toList.dropWhile fun c => c = ' ' ∨ c = '\t' ∨ c = '\n' ∨ c = '\r'
  match cs with
  | '-' :: rest => (digitsValue rest).map fun n => -(n : Int)
  | '+' :: rest => (digitsValue rest).map fun n => (n : Int)
  | rest => (digitsValue rest).map fun n => (n : Int)

/-- JS `x || d` for `x` a number that may be `NaN` (`none`): the default is
taken when `x` is `NaN` or `0` (both falsy). -/
def jsOrDefault (v : Option Int) (d : Int) : Int :=
  match v with
  | none => d
  | some n => if n = 0 then d else n

/-- The resolved `CONFIG` object (lines 50–58).  Numeric fields are
`Option Int` with `none` modelling `NaN` (assignable by a CLI flag whose
value is missing or non-numeric); `configFromEnv` always produces finite
values because of the `|| default` fallbacks. -/
structure Config where
  baseURL : Option String
  concurrentRequests : Option Int
  totalRequests : Option Int
  delayBetweenBatches : Option Int
  timeout : Option Int
  verbose : Bool
deriving DecidableEq

/-- `CONFIG` as initialized from the environment (lines 50–58):
`parseInt(process.env.X) || default`, and `VERBOSE === 'true'`. -/
def configFromEnv (env : String → Option String) : Config :=
  { baseURL := some ((env "BASE_URL").getD "http://localhost:3000")
    concurrentRequests := some (jsOrDefault ((env "CONCURRENT_REQUESTS").bind parseIntJS) 10)
    totalRequests := some (jsOrDefault ((env "TOTAL_REQUESTS").bind parseIntJS) 100)
    delayBetweenBatches := some (jsOrDefault ((env "DELAY_BETWEEN_BATCHES").bind parseIntJS) 1000)
    timeout := some (jsOrDefault ((env "TIMEOUT").bind parseIntJS) 5000)
    verbose := env "VERBOSE" = some "true" }

/-- `parseArgs` (lines 254–323) folded over the argument list.  `--help`/`-h`
exits the process, modelled as `none`.  A value flag at the end of the list
reads `args[++i] = undefined`, so `parseInt` yields `NaN` (`none` in the
field).  Unknown options only warn. -/
def parseArgs (cfg : Config) : List String → Option Config
  | [] => some cfg
  | "--help" :: _ => none
  | "-h" :: _ => none
  | "--concurrent" :: [] => some { cfg with concurrentRequests := none }
  | "--concurrent" :: v :: rest =>
    parseArgs { cfg with concurrentRequests := parseIntJS v } rest
  | "--total" :: [] => some { cfg with totalRequests := none }
  | "--total" :: v :: rest =>
    parseArgs { cfg with totalRequests := parseIntJS v } rest
  | "--delay" :: [] => some { cfg with delayBetweenBatches := none }
  | "--delay" :: v :: rest =>
    parseArgs { cfg with delayBetweenBatches := parseIntJS v } rest
  | "--timeout" :: [] => some { cfg with timeout := none }
  | "--timeout" :: v :: rest =>
    parseArgs { cfg with timeout := parseIntJS v } rest
  | "--base-url" :: [] => some { cfg with baseURL := none }
  | "--base-url" :: v :: rest =>
    parseArgs { cfg with baseURL := some v } rest
  | "--verbose" :: rest => parseArgs { cfg with verbose := true } rest
  | _ :: rest => parseArgs cfg rest

/-- The exact rational value of the IEEE-754 double `Math.PI`
(`3.141592653589793`, significand `884279719003555`, exponent `-48`). -/
def mathPI : ℚ := 884279719003555 / 281474976710656

/-- `Number.prototype.toFixed(9)` on a nonnegative number below `10^21`:
the integer `n` nearest to `x * 10^9` (ties toward `+∞`), rendered with nine
fraction digits. -/
def toFixed9 (q : ℚ) : String :=
  let n : Int := ⌊q * 1000000000 + 1 / 2⌋
  let m := n.natAbs
  let fracDigits := natDigits (m % 1000000000 + 1) (m % 1000000000)
  let pad := List.replicate (9 - fracDigits.length) '0'
  natToString (m / 1000000000) ++ "." ++ String.mk (pad ++ fracDigits)

/-- The JSON body and status the `/pi` route handler produces
(`app.js` lines 112–121). -/
structure PiResponse where
  status : Nat
  pi : String
  digits : Nat
  timestamp : String
deriving DecidableEq

/-- The `/pi` handler: `res.json` with default status 200 and body
`{pi: Math.PI.toFixed(9), digits: 10, timestamp}`. -/
def piHandler (now : String) : PiResponse :=
  { status := 200
    pi := toFixed9 mathPI
    digits := 10
    timestamp := now }

theorem jsCeilDiv_pos {a b : Nat} (ha : 1 ≤ a) (hb : 1 ≤ b) : 1 ≤ jsCeilDiv a b := by
  unfold jsCeilDiv
  exact Nat.le_div_iff_mul_le hb |>.mpr (by omega)

theorem le_jsCeilDiv_mul {a b : Nat} (hb : 1 ≤ b) : a ≤ jsCeilDiv a b * b := by
  rcases Nat.eq_zero_or_pos a with ha | ha
  · subst ha; exact Nat.zero_le _
  · unfold jsCeilDiv
    have h := Nat.div_add_mod (a + b - 1) b
    have hlt : (a + b - 1) % b < b := Nat.mod_lt _ hb
    have hx : a + b - 1 + 1 = a + b := by omega
    rw [Nat.mul_comm]
    linarith [h, hlt, hx]

theorem jsCeilDiv_le {a b c : Nat} (hb : 1 ≤ b) (h : a ≤ c * b) : jsCeilDiv a b ≤ c := by
  unfold jsCeilDiv
  have h1 : a + b - 1 < a + b := by omega
  have h2 : a + b ≤ c * b + b := by linarith
  have h3 : a + b - 1 < (c + 1) * b := by linarith
  have := (Nat.div_lt_iff_lt_mul hb).mpr h3
  exact Nat.lt_succ_iff.mp this

/-- Sum of the issued batch sizes, for enough fuel: it is the (truncated)
remaining request count at the starting index. -/
theorem batchSizesFrom_sum (total rPerBatch : Int) (hR : 1 ≤ rPerBatch) :
    ∀ (fuel : Nat) (b : Int), total - b * rPerBatch ≤ (fuel : Int) * rPerBatch →
      (batchSizesFrom total rPerBatch fuel b).sum = max 0 (total - b * rPerBatch) := by
  intro fuel
  induction fuel with
  | zero =>
    intro b hfuel
    simp only [Nat.cast_zero, zero_mul] at hfuel
    simp only [batchSizesFrom, List.sum_nil]
    exact (max_eq_left hfuel).symm
  | succ fuel ih =>
    intro b hfuel
    have hfs : ((fuel + 1 : Nat) : Int) * rPerBatch = (fuel : Int) * rPerBatch + rPerBatch := by
      push_cast; ring
    rw [hfs] at hfuel
    simp only [batchSizesFrom]
    have hnext : total - (b + 1) * rPerBatch ≤ (fuel : Int) * rPerBatch := by linarith
    have key := ih (b + 1) hnext
    by_cases hsize : min rPerBatch (total - b * rPerBatch) ≤ 0
    · rw [if_pos hsize]
      have hle : total - b * rPerBatch ≤ 0 := by
        rcases le_total rPerBatch (total - b * rPerBatch) with h | h
        · rw [min_eq_left h] at hsize; linarith
        · rw [min_eq_right h] at hsize; linarith
      simp only [List.sum_nil]
      exact (max_eq_left hle).symm
    · rw [if_neg hsize]
      simp only [List.sum_cons]
      rw [key]
      push_neg at hsize
      have hrem : (0 : Int) ≤ total - b * rPerBatch := le_of_lt (lt_min_iff.mp hsize).2
      rw [max_eq_right hrem]
      rcases le_total rPerBatch (total - b * rPerBatch) with h | h
      · rw [min_eq_left h]
        have h2 : (0 : Int) ≤ total - (b + 1) * rPerBatch := by linarith
        rw [max_eq_right h2]
        ring
      · rw [min_eq_right h]
        have h2 : total - (b + 1) * rPerBatch ≤ 0 := by linarith
        rw [max_eq_left h2]
        ring

theorem calculatePercentile_nil (p : Nat) : calculatePercentile [] p = 0 := by
  simp [calculatePercentile, jsCeilDiv]

/-- Ids of one batch are the formula's values at offsets `0, …, batchSize-1`. -/
theorem batchRequestIds_sorted (batchNumber batchSize : Nat) :
    List.Sorted (· < ·) (batchRequestIds batchNumber batchSize) := by
  unfold batchRequestIds
  refine List.Pairwise.map _ (fun i j h => ?_) (List.pairwise_lt_range batchSize)
  omega

/-- When every batch of a run has the same size `s`, the concatenated id
sequence is strictly increasing and every id of the chunks starting at batch
`b` exceeds `b * s`. -/
theorem sorted_uniform_chunks (s : Nat) :
    ∀ (L : List Int) (b : Nat), (∀ x ∈ L, x = (s : Int)) →
      List.Sorted (· < ·) ((L.enumFrom b).flatMap fun p => batchRequestIds p.1 p.2.toNat) ∧
      ∀ id ∈ (L.enumFrom b).flatMap fun p => batchRequestIds p.1 p.2.toNat, b * s < id := by
  intro L
  induction L with
  | nil => intro b _; exact ⟨by simp, by simp⟩
  | cons x rest ih =>
    intro b h
    have hx : x = (s : Int) := h x (by simp)
    have hrest : ∀ y ∈ rest, y = (s : Int) := fun y hy => h y (by simp [hy])
    obtain ⟨ihs, ihb⟩ := ih (b + 1) hrest
    subst hx
    simp only [List.enumFrom, List.flatMap_cons, Int.toNat_natCast]
    have hchunk : ∀ a ∈ batchRequestIds b s, b * s < a ∧ a ≤ (b + 1) * s := by
      intro a ha
      simp only [batchRequestIds, List.mem_map, List.mem_range] at ha
      obtain ⟨i, hi, rfl⟩ := ha
      constructor
      · omega
      · have : b * s + i + 1 ≤ b * s + s := by omega
        calc b * s + i + 1 ≤ b * s + s := this
          _ = (b + 1) * s := by ring
    constructor
    · rw [List.Sorted, List.pairwise_append]
      refine ⟨batchRequestIds_sorted b s, ihs, ?_⟩
      intro a ha y hy
      have h1 := (hchunk a ha).2
      have h2 := ihb y hy
      omega
    · intro id hid
      rcases List.mem_append.mp hid with hmem | hmem
      · exact (hchunk id hmem).1
      · have h2 := ihb id hmem
        have : b * s ≤ (b + 1) * s := Nat.mul_le_mul_right s (by omega)
        omega

/-- C1: for every configuration with `concurrency ≥ 1` the batch formulas
satisfy `numBatches * requestsPerBatch ≥ totalRequests`, and the batch sizes
the loop actually issues sum to `totalRequests` exactly.  (For
`totalRequests = 0` both formulas evaluate with a zero denominator, modelled
as `jsCeilDiv _ 0 = 0`; the loop then runs zero times.) -/
theorem batch_partition_exact (total concurrent : Nat) (hC : 1 ≤ concurrent) :
    total ≤ numBatches total concurrent * requestsPerBatch total concurrent ∧
    (batchSizes total concurrent).sum = (total : Int) := by
  rcases Nat.eq_zero_or_pos total with h0 | h1
  · subst h0
    have hnb : numBatches 0 concurrent = 0 := by
      unfold numBatches jsCeilDiv
      exact Nat.div_eq_of_lt (by omega)
    refine ⟨Nat.zero_le _, ?_⟩
    unfold batchSizes
    rw [hnb]
    simp [batchSizesFrom]
  · have hnb : 1 ≤ numBatches total concurrent := jsCeilDiv_pos h1 hC
    have hR : 1 ≤ requestsPerBatch total concurrent := jsCeilDiv_pos h1 hnb
    have hprod : total ≤ requestsPerBatch total concurrent * numBatches total concurrent :=
      le_jsCeilDiv_mul hnb
    constructor
    · rw [Nat.mul_comm]
      exact hprod
    · unfold batchSizes
      have hcast : (total : Int) ≤
          (requestsPerBatch total concurrent : Int) * (numBatches total concurrent : Int) := by
        exact_mod_cast hprod
      have hfuel : (total : Int) - 0 * (requestsPerBatch total concurrent : Int) ≤
          (numBatches total concurrent : Int) * (requestsPerBatch total concurrent : Int) := by
        linarith
      have hsum := batchSizesFrom_sum (total : Int) (requestsPerBatch total concurrent : Int)
        (by exact_mod_cast hR) (numBatches total concurrent) 0 hfuel
      rw [hsum]
      have hz : (total : Int) - 0 * (requestsPerBatch total concurrent : Int) = (total : Int) := by
        ring
      rw [hz]
      exact max_eq_right (by positivity)

theorem batch_partition_exact_witness :
    1 ≤ 5 ∧ (12 ≤ numBatches 12 5 * requestsPerBatch 12 5 ∧
      (batchSizes 12 5).sum = (12 : Int)) :=
  ⟨by decide, batch_partition_exact 12 5 (by decide)⟩

/-- C2: for `concurrency = 5`, `totalRequests = 12` the scheduler executes
exactly 3 batches; their sizes are the even redistribution `[4, 4, 4]`
produced by the ceiling formula (`numBatches = 3`, `requestsPerBatch = 4`),
not the naive chunking `[5, 5, 2]` by the concurrency level. -/
theorem batch_sizes_concurrency5_total12 :
    (batchSizes 12 5).length = 3 ∧ batchSizes 12 5 = [4, 4, 4] ∧
    batchSizes 12 5 ≠ [5, 5, 2] ∧
    numBatches 12 5 = 3 ∧ requestsPerBatch 12 5 = 4 := by decide

/-- C3: `calculatePercentile` sorts ascending and returns the element at
index `ceil(percentile / 100 * count) - 1`, falling back to `0` when that
index selects nothing (in particular on the empty list); on
`[10, 20, 30, 40, 50]` the 50th percentile is `30` and the 90th is `50`. -/
theorem calculatePercentile_spec :
    (∀ p, calculatePercentile [] p = 0) ∧
    calculatePercentile [10, 20, 30, 40, 50] 50 = 30 ∧
    calculatePercentile [10, 20, 30, 40, 50] 90 = 50 :=
  ⟨calculatePercentile_nil, by decide, by decide⟩

/-- C4: every completed request increments `totalRequests` exactly once and
exactly one of `successfulRequests` / `failedRequests`; consequently
`totalRequests = successfulRequests + failedRequests` holds after every
prefix of completed requests (each update is one atomic step of the
single-threaded event loop). -/
theorem stats_total_eq_success_plus_failed :
    (∀ (requestId : Nat) (rt : ℚ) (st : Nat) (s : Stats),
        (makeRequest requestId (.success rt st) s).totalRequests = s.totalRequests + 1 ∧
        (makeRequest requestId (.success rt st) s).successfulRequests =
          s.successfulRequests + 1 ∧
        (makeRequest requestId (.success rt st) s).failedRequests = s.failedRequests) ∧
    (∀ (requestId : Nat) (rt : ℚ) (msg : String) (s : Stats),
        (makeRequest requestId (.failure rt msg) s).totalRequests = s.totalRequests + 1 ∧
        (makeRequest requestId (.failure rt msg) s).successfulRequests =
          s.successfulRequests ∧
        (makeRequest requestId (.failure rt msg) s).failedRequests = s.failedRequests + 1) ∧
    ∀ requests : List (Nat × RequestOutcome),
        (runStats requests).totalRequests =
          (runStats requests).successfulRequests + (runStats requests).failedRequests := by
  refine ⟨fun _ _ _ _ => ⟨rfl, rfl, rfl⟩, fun _ _ _ _ => ⟨rfl, rfl, rfl⟩, ?_⟩
  have key : ∀ (l : List (Nat × RequestOutcome)) (s : Stats),
      s.totalRequests = s.successfulRequests + s.failedRequests →
      (l.foldl (fun s r => makeRequest r.1 r.2 s) s).totalRequests =
        (l.foldl (fun s r => makeRequest r.1 r.2 s) s).successfulRequests +
          (l.foldl (fun s r => makeRequest r.1 r.2 s) s).failedRequests := by
    intro l
    induction l with
    | nil => intro s h; exact h
    | cons r rest ih =>
      intro s h
      simp only [List.foldl_cons]
      apply ih
      rcases r with ⟨id, o⟩
      rcases o with ⟨rt, st⟩ | ⟨rt, msg⟩ <;> simp [makeRequest] <;> omega
  intro requests
  exact key requests initStats rfl

/-- C5 (counterexample): with `totalRequests = 0` the success-rate division
`0 / 0` evaluates to `NaN` and the report line reads `NaN%` — neither `0`
nor `N/A`. -/
theorem success_rate_zero_denominator_nan :
    successRate 0 0 = JSNum.nan ∧
    successRateLine 0 0 = "Success Rate: NaN%" ∧
    successRateLine 0 0 ≠ "Success Rate: 0.00%" ∧
    successRateLine 0 0 ≠ "Success Rate: N/A" := by
  have hsr : successRate 0 0 = JSNum.nan := by simp [successRate, jsDiv, jsMulPos]
  have hline : successRateLine 0 0 = "Success Rate: NaN%" := by
    unfold successRateLine
    rw [hsr]
    rfl
  exact ⟨hsr, hline, by rw [hline]; decide, by rw [hline]; decide⟩

/-- C5 (amended): when `totalRequests = 0` the loop performs zero batches, no
request is issued, the counts are all zero and every report computation is
total (no crash); the success rate evaluates to `NaN` (rendered `"NaN"`),
not `0` or `N/A`, while the throughput is `0` for any positive duration. -/
theorem zero_total_requests_report (concurrent : Nat) (hC : 1 ≤ concurrent)
    (d : ℚ) (hd : 0 < d) :
    batchSizes 0 concurrent = [] ∧
    requestIds 0 concurrent = [] ∧
    runStats [] = initStats ∧
    initStats.totalRequests = 0 ∧
    initStats.successfulRequests = 0 ∧
    initStats.failedRequests = 0 ∧
    successRate 0 0 = JSNum.nan ∧
    jsNumToFixed2 (successRate 0 0) = "NaN" ∧
    requestsPerSecond 0 d = JSNum.num 0 ∧
    jsNumToFixed2 (requestsPerSecond 0 d) = "0.00" := by
  have hnb : numBatches 0 concurrent = 0 := by
    unfold numBatches jsCeilDiv
    exact Nat.div_eq_of_lt (by omega)
  have hbs : batchSizes 0 concurrent = [] := by
    unfold batchSizes
    rw [hnb]
    rfl
  have hsr : successRate 0 0 = JSNum.nan := by simp [successRate, jsDiv, jsMulPos]
  have hrps : requestsPerSecond 0 d = JSNum.num 0 := by
    unfold requestsPerSecond jsDiv
    rw [if_neg (by positivity)]
    norm_num
  refine ⟨hbs, ?_, rfl, rfl, rfl, rfl, hsr, by rw [hsr]; rfl, hrps, ?_⟩
  · unfold requestIds
    rw [hbs]
    rfl
  · rw [hrps]
    show toFixed2 0 = "0.00"
    unfold toFixed2
    rw [show (⌊(0 : ℚ) * 100 + 1 / 2⌋ : Int) = 0 by norm_num]
    decide

theorem zero_total_requests_report_witness :
    batchSizes 0 10 = [] ∧
    requestIds 0 10 = [] ∧
    runStats [] = initStats ∧
    initStats.totalRequests = 0 ∧
    initStats.successfulRequests = 0 ∧
    initStats.failedRequests = 0 ∧
    successRate 0 0 = JSNum.nan ∧
    jsNumToFixed2 (successRate 0 0) = "NaN" ∧
    requestsPerSecond 0 1 = JSNum.num 0 ∧
    jsNumToFixed2 (requestsPerSecond 0 1) = "0.00" :=
  zero_total_requests_report 10 (by decide) 1 (by norm_num)

/-- C6 (counterexample): for `totalRequests = 10`, `concurrency = 3` the
formula gives batches `[3, 3, 3, 1]`, and because `requestId` is computed
from the *current* batch's size, the final short batch restarts the ids: the
dispatch-order sequence is `[1,…,9, 4]`, which is not monotonically
increasing. -/
theorem requestIds_not_monotone :
    requestIds 10 3 = [1, 2, 3, 4, 5, 6, 7, 8, 9, 4] ∧
    ¬ List.Sorted (· ≤ ·) (requestIds 10 3) := by decide

/-- C6 (amended): every request of batch `b` with size `s` is assigned the
identifier `b * s + offset + 1`; within each batch the identifiers are
strictly increasing, and the whole dispatch-order sequence is strictly
increasing whenever all executed batches have the same size
`requestsPerBatch` — but not in general (a shorter final batch restarts the
sequence). -/
theorem requestIds_formula_batchwise (total concurrent : Nat) :
    (∀ batchNumber batchSize,
        batchRequestIds batchNumber batchSize =
          (List.range batchSize).map fun i => batchNumber * batchSize + i + 1) ∧
    (∀ batchNumber batchSize, List.Sorted (· < ·) (batchRequestIds batchNumber batchSize)) ∧
    ((∀ x ∈ batchSizes total concurrent, x = (requestsPerBatch total concurrent : Int)) →
      List.Sorted (· < ·) (requestIds total concurrent)) := by
  refine ⟨fun _ _ => rfl, batchRequestIds_sorted, fun h => ?_⟩
  exact (sorted_uniform_chunks (requestsPerBatch total concurrent)
    (batchSizes total concurrent) 0 h).1

theorem requestIds_formula_batchwise_witness :
    List.Sorted (· < ·) (requestIds 12 5) ∧
    List.Sorted (· < ·) (batchRequestIds 2 4) :=
  ⟨(requestIds_formula_batchwise 12 5).2.2 (by decide),
    (requestIds_formula_batchwise 12 5).2.1 2 4⟩

/-- C7: every `/pi` response has HTTP status 200, the literal decimal string
`"3.141592654"` (`Math.PI.toFixed(9)`: π to 9 fraction digits, 10
significant digits) in the `pi` field and `10` in the `digits` field. -/
theorem pi_endpoint_constant (now : String) :
    (piHandler now).status = 200 ∧
    (piHandler now).pi = "3.141592654" ∧
    (piHandler now).digits = 10 := by
  refine ⟨rfl, ?_, rfl⟩
  show toFixed9 mathPI = "3.141592654"
  unfold toFixed9
  rw [show (⌊mathPI * 1000000000 + 1 / 2⌋ : Int) = 3141592654 by norm_num [mathPI]]
  decide

/-- C8: an environment variable set to the string `"0"` falls through
`parseInt(...) || default` to the built-in default (100, 10, 1000, 5000),
whereas the CLI flags `--total 0`, `--concurrent 0`, `--delay 0`,
`--timeout 0` assign the value 0 directly. -/
theorem env_zero_uses_default_cli_zero_sets_zero :
    (configFromEnv fun k =>
      if k = "TOTAL_REQUESTS" then some "0" else none).totalRequests = some 100 ∧
    (configFromEnv fun k =>
      if k = "CONCURRENT_REQUESTS" then some "0" else none).concurrentRequests = some 10 ∧
    (configFromEnv fun k =>
      if k = "DELAY_BETWEEN_BATCHES" then some "0" else none).delayBetweenBatches =
        some 1000 ∧
    (configFromEnv fun k =>
      if k = "TIMEOUT" then some "0" else none).timeout = some 5000 ∧
    (parseArgs (configFromEnv fun _ => none) ["--total", "0"]).map Config.totalRequests =
      some (some 0) ∧
    (parseArgs (configFromEnv fun _ => none)
      ["--concurrent", "0"]).map Config.concurrentRequests = some (some 0) ∧
    (parseArgs (configFromEnv fun _ => none)
      ["--delay", "0"]).map Config.delayBetweenBatches = some (some 0) ∧
    (parseArgs (configFromEnv fun _ => none) ["--timeout", "0"]).map Config.timeout =
      some (some 0) := by decide

/-- C9: a failed request leaves `totalResponseTime`, `minResponseTime`,
`maxResponseTime`, `responseTimes` and `successfulRequests` unchanged, and
modifies exactly `failedRequests`, `errors` and `totalRequests`. -/
theorem failed_request_frame (requestId : Nat) (rt : ℚ) (msg : String) (s : Stats) :
    (makeRequest requestId (.failure rt msg) s).totalResponseTime = s.totalResponseTime ∧
    (makeRequest requestId (.failure rt msg) s).minResponseTime = s.minResponseTime ∧
    (makeRequest requestId (.failure rt msg) s).maxResponseTime = s.maxResponseTime ∧
    (makeRequest requestId (.failure rt msg) s).responseTimes = s.responseTimes ∧
    (makeRequest requestId (.failure rt msg) s).successfulRequests = s.successfulRequests ∧
    (makeRequest requestId (.failure rt msg) s).failedRequests = s.failedRequests + 1 ∧
    (makeRequest requestId (.failure rt msg) s).errors = s.errors ++ [(requestId, msg, rt)] ∧
    (makeRequest requestId (.failure rt msg) s).totalRequests = s.totalRequests + 1 :=
  ⟨rfl, rfl, rfl, rfl, rfl, rfl, rfl, rfl⟩

/-- C10: on a non-empty list and a percentile `0 < p ≤ 100`,
`calculatePercentile` returns an element of the list; on the empty list it
returns 0. -/
theorem calculatePercentile_returns_element :
    (∀ (values : List Int) (p : Nat), values ≠ [] → 0 < p → p ≤ 100 →
        calculatePercentile values p ∈ values) ∧
    ∀ p, calculatePercentile [] p = 0 := by
  refine ⟨?_, calculatePercentile_nil⟩
  intro values p hne hp1 hp2
  have hperm := List.perm_insertionSort (· ≤ ·) values
  have hlp : 1 ≤ values.length := List.length_pos.mpr hne
  simp only [calculatePercentile]
  set L := (List.insertionSort (· ≤ ·) values).length with hL
  have hlen : L = values.length := hperm.length_eq
  have hk1 : 1 ≤ jsCeilDiv (p * L) 100 :=
    jsCeilDiv_pos (Nat.mul_pos hp1 (by omega)) (by omega)
  have hk2 : jsCeilDiv (p * L) 100 ≤ L :=
    jsCeilDiv_le (by omega)
      (by calc p * L ≤ 100 * L := Nat.mul_le_mul_right L hp2
            _ = L * 100 := Nat.mul_comm _ _)
  rw [if_pos (by omega)]
  have hidx : ((jsCeilDiv (p * L) 100 : Int) - 1).toNat <
      (List.insertionSort (· ≤ ·) values).length := by
    rw [← hL]
    omega
  have hmem : (List.insertionSort (· ≤ ·) values).getD
      (((jsCeilDiv (p * L) 100 : Int) - 1).toNat) 0 ∈
      List.insertionSort (· ≤ ·) values := by
    rw [List.getD_eq_getElem?_getD, List.getElem?_eq_getElem hidx, Option.getD_some]
    exact List.getElem_mem hidx
  exact hperm.mem_iff.mp hmem

theorem calculatePercentile_returns_element_witness :
    calculatePercentile [30, 10, 50, 20, 40] 50 ∈ [30, 10, 50, 20, 40] :=
  calculatePercentile_returns_element.1 [30, 10, 50, 20, 40] 50
    (by decide) (by decide) (by decide)
